import Mathlib

/-!
Verification development for the crokinole robot-arm controller
(`panda_interface/controller.cpp` and `panda_starter_code/controller.cpp`).

The development shallowly embeds, from the source:
 * the time-parametrized trajectory generator (`calculatePointInTrajectory`,
   `calculateRotationInTrajectory`, `inRange`, `atan2`) over the reals;
 * the goal-reached predicate `robotReachedGoal` of both variants;
 * the safety monitor `safetyChecks` over exact rationals (all limits are
   decimal constants);
 * the supervisory mode/phase state machine of the 1 kHz control loop of
   `panda_interface` (`step`), with the per-tick sensor-derived conditions
   (joint-goal reached, operational goal reached, terminal joint angle) and
   the external key-value store reads (activation token, shot parameters)
   supplied as oracle inputs of each tick.  Gain fields, desired-position
   targets and torque synthesis are delegated to the external control
   library and are not part of the supervisory state; the trajectory targets
   they receive are the functions embedded above.
 * the loop/shutdown publish structure of both variants.
-/

open Real Filter Set Matrix

noncomputable section

/-! ## Trajectory generator (panda_interface/controller.cpp) -/

/-- time slots for which pieces of the trajectory are executed (lines 90-94). -/
def t_0 : ℝ := 0

def t_1 : ℝ := 4

def t_2 : ℝ := 8

def t_3 : ℝ := 12

def t_4 : ℝ := 13

/-- `const double ee_length = 17.70 * 0.0254;` (line 95). -/
def ee_length : ℝ := 17.70 * 0.0254

/-- `inRange` (lines 595-597): true iff `t < upper && t >= lower`. -/
def inRange (t lower upper : ℝ) : Prop := t < upper ∧ t ≥ lower

instance (t lower upper : ℝ) : Decidable (inRange t lower upper) :=
  inferInstanceAs (Decidable (_ ∧ _))

/-- C's `atan2(y, x)`: angle of the point `(x, y)`, in `(-π, π]`;
`atan2 0 0 = 0`. -/
def atan2 (y x : ℝ) : ℝ :=
  if 0 < x then arctan (y / x)
  else if x < 0 ∧ 0 ≤ y then arctan (y / x) + π
  else if x < 0 ∧ y < 0 then arctan (y / x) - π
  else if x = 0 ∧ 0 < y then π / 2
  else if x = 0 ∧ y < 0 then -(π / 2)
  else 0

/-- diameter of board is 20.125 in, convert to m (line 463). -/
def board_r : ℝ := 20.125 / 2 * 0.0254

def x_offset : ℝ := 0.7385

def y_offset : ℝ := 0.1070 + 0.035

def z_offset : ℝ := 0.3120

/-- home position `xh` (line 469). -/
def xh : Fin 3 → ℝ := ![0.2859, 0.2787, 0.4300]

/-- cue coin position `xc` (lines 471-473). -/
def xc : Fin 3 → ℝ :=
  ![board_r * sin (-π / 4) + x_offset, board_r * cos (-π / 4) + y_offset, z_offset]

/-- board-to-robot frame homogeneous transform `T` (lines 476-477). -/
def frameT : Matrix (Fin 4) (Fin 4) ℝ :=
  !![0, 1, 0, x_offset; -1, 0, 0, y_offset; 0, 0, 1, z_offset; 0, 0, 0, 1]

/-- `xcd = (T * cue_start_pos).head(3)` (lines 479-482): the drop-off
position of the cue coin in the robot frame. -/
def xcd (cue_start_pos : Fin 4 → ℝ) : Fin 3 → ℝ :=
  fun i => frameT.mulVec cue_start_pos i.castSucc

/-- `calculatePointInTrajectory` (lines 461-518), with the global
`cue_start_pos` passed explicitly.  The window boundaries are the globals
`t_0 … t_4`, which are never modified (proved below on the state machine). -/
def calculatePointInTrajectory (cue_start_pos : Fin 4 → ℝ) (t : ℝ) : Fin 3 → ℝ :=
  if inRange t t_0 t_1 then
    -- home position to cue coin position
    fun i => xh i + (xc i - xh i) * (t - t_0) / (t_1 - t_0)
  else if inRange t t_1 t_2 then
    -- move cue coin from home to desired position along the board arc
    let x0 := xc 0
    let y0 := xc 1
    let xf := xcd cue_start_pos 0
    let yf := xcd cue_start_pos 1
    let th0 := atan2 (x0 - x_offset) (y0 - y_offset)
    let thf := atan2 (xf - x_offset) (yf - y_offset)
    let old_range := t_2 - t_1
    let new_range := thf - th0
    let new_t := ((t - t_1) * new_range) / old_range + th0
    ![board_r * sin new_t + x_offset, board_r * cos new_t + y_offset, xc 2]
  else if inRange t t_2 t_3 then xcd cue_start_pos
  else if inRange t t_3 t_4 then xcd cue_start_pos -- shooting
  else xh

/-- rotation about the vertical axis: `AngleAxisd(θ, Vector3d::UnitZ())`,
also the literal `hit_rot` matrix of lines 547-548 at `θ = -π/2 + ψ`. -/
def Rz (θ : ℝ) : Matrix (Fin 3) (Fin 3) ℝ :=
  !![cos θ, -sin θ, 0; sin θ, cos θ, 0; 0, 0, 1]

/-- `home_orientation` (lines 532-533). -/
def home_orientation : Matrix (Fin 3) (Fin 3) ℝ :=
  !![0.7360145, 0.6763110, 0.0297644;
     -0.0413102, 0.0009846, 0.9991459;
     0.6757041, -0.7366155, 0.0286632]

/-- `calculateRotationInTrajectory` (lines 527-562). -/
def calculateRotationInTrajectory (t psi : ℝ) : Matrix (Fin 3) (Fin 3) ℝ :=
  if inRange t t_0 t_1 then
    Rz (-π / 4 * (t - t_0) / (t_1 - t_0)) * home_orientation
  else if inRange t t_1 t_2 then
    -- rotate -90/2 degrees to gather the coin
    Rz (-π / 4) * home_orientation
  else if inRange t t_2 t_3 then
    Rz (-π / 2 + psi) * home_orientation
  else if inRange t t_3 t_4 then
    Rz (-π / 2 + psi) * home_orientation
  else home_orientation

/-! ## Goal-reached predicate (both variants) -/

/-- `robotReachedGoal` of panda_interface (lines 437-447), `epsilon = 3`. -/
def robotReachedGoal {n : ℕ} (x x_desired xdot xddot omega alpha : EuclideanSpace ℝ (Fin n)) :
    Bool :=
  let epsilon : ℝ := 3
  let error_norm : ℝ :=
    100 * ‖xdot‖ + 10 * ‖x - x_desired‖ + 1000 * ‖xddot‖ + 1000 * ‖omega‖ + 1000 * ‖alpha‖
  if error_norm < epsilon then true else false

/-- `robotReachedGoal` of panda_starter_code (lines 360-369), `epsilon = 0.001`. -/
def robotReachedGoalStarter {n : ℕ}
    (x x_desired xdot xddot omega alpha : EuclideanSpace ℝ (Fin n)) : Bool :=
  let epsilon : ℝ := 0.001
  let error_norm : ℝ :=
    100 * ‖xdot‖ + 10 * ‖x - x_desired‖ + 1000 * ‖xddot‖ + 1000 * ‖omega‖ + 1000 * ‖alpha‖
  if error_norm < epsilon then true else false

end

/-! ## Safety monitor (lines 79-85 and 600-619; limits identical in both
variants).  All constants are exact decimals, embedded over `ℚ`. -/

def joint_position_max : Fin 7 → ℚ := ![2.7, 1.6, 2.7, -0.2, 2.7, 3.6, 2.7]

def joint_position_min : Fin 7 → ℚ := ![-2.7, -1.6, -2.7, -3.0, -2.7, 0.2, -2.7]

def joint_velocity_limits : Fin 7 → ℚ := ![2.0, 2.0, 2.0, 2.0, 2.5, 2.5, 2.5]

def joint_torques_limits : Fin 7 → ℚ := ![85, 85, 85, 85, 10, 10, 10]

/-- the four kinds of soft-limit violation reports printed by `safetyChecks`. -/
inductive Violation where
  | maxPos
  | minPos
  | maxVel
  | maxTorque
deriving DecidableEq, Repr

/-- `safetyChecks` (lines 600-619): for each joint `i`, in loop order, emit a
report for each strictly exceeded soft limit (the interface variant prints
the joint number with each report, modelled as the `Fin 7` component). -/
def safetyChecks (q dq tau : Fin 7 → ℚ) : List (Fin 7 × Violation) :=
  (List.finRange 7).flatMap fun i =>
    (if q i > joint_position_max i then [(i, Violation.maxPos)] else []) ++
    (if q i < joint_position_min i then [(i, Violation.minPos)] else []) ++
    (if |dq i| > joint_velocity_limits i then [(i, Violation.maxVel)] else []) ++
    (if |tau i| > joint_torques_limits i then [(i, Violation.maxTorque)] else [])

/-! ## Supervisory mode/phase state machine (panda_interface main loop,
lines 206-422).

Per tick, the control loop reads the sensed robot state and the external
store; the supervisory decisions depend on it only through
 * the activation token `redis_client.get(MODE_CHANGE_KEY)` (WAIT mode),
 * the parsed shot parameters (WAIT→EXECUTE transition; `stod` of the
   decimal strings gives exact rationals),
 * the predicate `(robot->_q - q_init_desired).norm() < 0.15`,
 * the predicate `robotReachedGoal(x, calculatePointInTrajectory(100), …)`,
 * the terminal joint angle `robot->_q(dof - 1)` captured into `theta_mid`.
These are the oracle fields of a `TickInput`.  The mutable globals the
supervisor reads or writes form `CState`; time is `controller_counter * dt`
with `dt = 0.001` (lines 224-225), embedded exactly over `ℚ`. -/

inductive Mode where
  | wait
  | exec
deriving DecidableEq, Repr

/-- the `state` global: `JOINT_CONTROLLER` (= spec phase APPROACH),
`POSORI_CONTROLLER` (spec TRACK before the shot, RETURN after it),
`JOINT_CONTROLLER_SHOT` (spec SHOT). -/
inductive Ctrl where
  | joint
  | posori
  | shot
deriving DecidableEq, Repr

structure TickInput where
  /-- value of the `modechange` key, read while in WAIT mode. -/
  token : String
  /-- parsed first component of the `shotpos` key (millimetres). -/
  shotPosX : ℚ
  /-- parsed second component of the `shotpos` key (millimetres). -/
  shotPosY : ℚ
  /-- parsed value of the `shotangle` key (radians). -/
  shotAngle : ℚ
  /-- `(robot->_q - q_init_desired).norm() < 0.15` this tick. -/
  jointReached : Bool
  /-- `robotReachedGoal(x, calculatePointInTrajectory(100), xdot, xddot, omega, alpha)` this tick. -/
  goalReached : Bool
  /-- `robot->_q(dof - 1)` this tick. -/
  qLast : ℚ
deriving Repr

structure CState where
  mode : Mode
  ctrl : Ctrl
  counter : ℕ
  centershot : Bool
  psi : ℚ
  cueStartX : ℚ
  cueStartY : ℚ
  thetaMid : ℚ
  t0 : ℚ
  t1 : ℚ
  t2 : ℚ
  t3 : ℚ
  t4 : ℚ
deriving Repr

/-- `double dt = 0.001;` (line 224). -/
def dt : ℚ := 0.001

/-- `double total_time = 1.3;` (line 200, never reassigned). -/
def total_time : ℚ := 1.3

/-- the state at program start: `mode = WAIT_MODE`, `state = JOINT_CONTROLLER`,
`controller_counter = 0`, `centershot = false`, boundaries `0,4,8,12,13`
(lines 38-40, 87, 90-94, 100); `psi = 90π/180` and `theta_mid = -1.03 + 0.2`
are real-valued initials irrelevant to the supervisory claims, set to `0`
placeholders here since every claim below either overwrites or ignores them. -/
def initState : CState :=
  { mode := Mode.wait, ctrl := Ctrl.joint, counter := 0, centershot := false,
    psi := 0, cueStartX := 0, cueStartY := 0, thetaMid := 0,
    t0 := 0, t1 := 4, t2 := 8, t3 := 12, t4 := 13 }

/-- one pass through the `EXECUTE_MODE` branch (lines 265-419), excluding the
trailing `controller_counter++`; the `if/else if` chain on `state` mirrors
lines 283, 318 and 361. -/
def execStep (s : CState) (i : TickInput) : CState :=
  let t : ℚ := s.counter * dt
  if s.ctrl = Ctrl.joint then
    -- lines 283-316
    if i.jointReached then { s with ctrl := Ctrl.posori, counter := 0 } else s
  else if s.ctrl = Ctrl.posori then
    -- lines 318-360: two successive (non-exclusive) ifs
    let s1 := if i.goalReached ∧ t > s.t4 then
                { s with mode := Mode.wait, ctrl := Ctrl.joint }
              else s
    if t > s1.t3 ∧ t < s1.t3 + total_time then
      { s1 with ctrl := Ctrl.shot, thetaMid := i.qLast }
    else s1
  else if s.ctrl = Ctrl.shot then
    -- lines 361-411: the phase-relevant effect is the exit condition
    if t > s.t4 + total_time then
      { s with centershot := false, ctrl := Ctrl.posori }
    else s
  else s

/-- one iteration of the 1 kHz loop (lines 206-422): the WAIT branch polls the
activation token and, on the exact token `"execute"`, captures the shot
parameters (scaling the drop-off millimetres by `0.001`) and the centershot
flag; the EXECUTE branch runs `execStep` and then `controller_counter++`. -/
def step (s : CState) (i : TickInput) : CState :=
  if s.mode = Mode.wait then
    if i.token = "execute" then
      { s with mode := Mode.exec,
               cueStartX := 0.001 * i.shotPosX,
               cueStartY := 0.001 * i.shotPosY,
               psi := i.shotAngle,
               centershot := if i.shotAngle ≤ 1.571 ∧ i.shotAngle ≥ 1.569 then true
                             else s.centershot }
    else s
  else if s.mode = Mode.exec then
    let s' := execStep s i
    { s' with counter := s'.counter + 1 }
  else s

/-- the state trace of the loop from `s0` under the oracle tick inputs. -/
def trace (s0 : CState) (inputs : ℕ → TickInput) : ℕ → CState
  | 0 => s0
  | n + 1 => step (trace s0 inputs n) (inputs n)

/-! ## Shot-parameter derivation at activation (lines 197-204, 255-262).

`hit_velocity` is declared at line 198 and never assigned: the comment
`// retrieve hit velocity through redis` at line 255 is not implemented, so
the derivation reads an indeterminate residual value.  It is therefore
embedded as a function of that residual value. -/

noncomputable def captureDerived (hit_velocity : ℝ) : ℝ × ℝ :=
  let swing_angle : ℝ := 120 * π / 180
  let shot_angular_velocity : ℝ := hit_velocity / ee_length
  let a : ℝ := swing_angle / 2
  let w : ℝ := shot_angular_velocity / a
  (a, w)

/-! ## Loop/shutdown publish traces (C10).

Each iteration of the interface loop publishes `command_torques` to the
commanded-torque key (line 420, outside the mode branches); after the loop,
lines 424-425 zero the vector and publish it once.  The starter variant
publishes only inside its EXECUTE branch (line 341) and after its loop only
zeroes the local vector (line 347) without publishing.  A run is abstracted
by the list of iterations executed before cancellation, each carrying the
torque vector the control stack computed (and, for the starter variant,
whether the iteration was in EXECUTE mode). -/

def zeroTorques : Fin 7 → ℚ := fun _ => 0

/-- publish trace of the panda_interface loop (lines 206-425). -/
def interfaceLoopPublishes : List (Fin 7 → ℚ) → List (Fin 7 → ℚ)
  | [] => [zeroTorques]
  | tau :: rest => tau :: interfaceLoopPublishes rest

/-- publish trace of the panda_starter_code loop (lines 189-347). -/
def starterLoopPublishes : List (Bool × (Fin 7 → ℚ)) → List (Fin 7 → ℚ)
  | [] => []
  | (inExec, tau) :: rest =>
      if inExec then tau :: starterLoopPublishes rest else starterLoopPublishes rest

/-! ## Claim theorems -/

/-- C2: for every input, `robotReachedGoal` returns `true` iff the weighted
error `100·‖ẋ‖ + 10·‖x − x_desired‖ + 1000·‖ẍ‖ + 1000·‖ω‖ + 1000·‖α‖` is
strictly below the variant's epsilon: `3` in panda_interface and `0.001` in
panda_starter_code. -/
theorem c2_robotReachedGoal_iff {n : ℕ}
    (x x_desired xdot xddot om al : EuclideanSpace ℝ (Fin n)) :
    (robotReachedGoal x x_desired xdot xddot om al = true ↔
      100 * ‖xdot‖ + 10 * ‖x - x_desired‖ + 1000 * ‖xddot‖ + 1000 * ‖om‖ + 1000 * ‖al‖ < 3) ∧
    (robotReachedGoalStarter x x_desired xdot xddot om al = true ↔
      100 * ‖xdot‖ + 10 * ‖x - x_desired‖ + 1000 * ‖xddot‖ + 1000 * ‖om‖ + 1000 * ‖al‖ < 0.001) := by
  constructor <;>
  · simp only [robotReachedGoal, robotReachedGoalStarter]
    split_ifs with h <;> simp [h]

/-- C9: outside all phase windows — for `t < t_0` or `t ≥ t_4` — the
trajectory generator returns the fixed home position and the fixed home
orientation, for every strike angle and drop-off position. -/
theorem c9_outside_windows_home (t psi : ℝ) (cue : Fin 4 → ℝ)
    (h : t < t_0 ∨ t ≥ t_4) :
    calculatePointInTrajectory cue t = xh ∧
    calculateRotationInTrajectory t psi = home_orientation := by
  have hcase : t < 0 ∨ t ≥ 13 := by simpa only [t_0, t_4] using h
  have h0 : ¬ inRange t t_0 t_1 := by
    simp only [inRange, t_0, t_1]
    rintro ⟨hlt, hge⟩; rcases hcase with hc | hc <;> linarith
  have h1 : ¬ inRange t t_1 t_2 := by
    simp only [inRange, t_1, t_2]
    rintro ⟨hlt, hge⟩; rcases hcase with hc | hc <;> linarith
  have h2 : ¬ inRange t t_2 t_3 := by
    simp only [inRange, t_2, t_3]
    rintro ⟨hlt, hge⟩; rcases hcase with hc | hc <;> linarith
  have h3 : ¬ inRange t t_3 t_4 := by
    simp only [inRange, t_3, t_4]
    rintro ⟨hlt, hge⟩; rcases hcase with hc | hc <;> linarith
  exact ⟨by simp [calculatePointInTrajectory, h0, h1, h2, h3],
         by simp [calculateRotationInTrajectory, h0, h1, h2, h3]⟩

theorem c9_outside_windows_home_witness :
    ((13 : ℝ) < t_0 ∨ (13 : ℝ) ≥ t_4) ∧
    (calculatePointInTrajectory (fun _ => 0) 13 = xh ∧
     calculateRotationInTrajectory 13 0 = home_orientation) :=
  ⟨Or.inr (by norm_num [t_4]),
   c9_outside_windows_home 13 0 (fun _ => 0) (Or.inr (by norm_num [t_4]))⟩

theorem mem_ite_singleton {α : Type*} (a b : α) (p : Prop) [Decidable p] :
    (a ∈ if p then [b] else []) ↔ p ∧ a = b := by
  split_ifs with h <;> simp [h]

theorem vecSeven0 {α : Type} (a b c d e f g : α) : (![a, b, c, d, e, f, g]) 0 = a := rfl

theorem vecSeven1 {α : Type} (a b c d e f g : α) : (![a, b, c, d, e, f, g]) 1 = b := rfl

theorem vecSeven2 {α : Type} (a b c d e f g : α) : (![a, b, c, d, e, f, g]) 2 = c := rfl

theorem vecSeven3 {α : Type} (a b c d e f g : α) : (![a, b, c, d, e, f, g]) 3 = d := rfl

theorem vecSeven4 {α : Type} (a b c d e f g : α) : (![a, b, c, d, e, f, g]) 4 = e := rfl

theorem vecSeven5 {α : Type} (a b c d e f g : α) : (![a, b, c, d, e, f, g]) 5 = f := rfl

theorem vecSeven6 {α : Type} (a b c d e f g : α) : (![a, b, c, d, e, f, g]) 6 = g := rfl

/-- C8: `safetyChecks` reports a joint/quantity exactly when the value
strictly exceeds the max (or strictly falls below the min, or its absolute
value strictly exceeds the velocity/torque limit); boundary-equal values are
not flagged; and the snapshot with joint 1 at its max plus `0.01` rad (all
other quantities in range) produces exactly the one report for that joint. -/
theorem c8_safetyChecks_strict :
    (∀ (q dq tau : Fin 7 → ℚ) (i : Fin 7),
      ((i, Violation.maxPos) ∈ safetyChecks q dq tau ↔ q i > joint_position_max i) ∧
      ((i, Violation.minPos) ∈ safetyChecks q dq tau ↔ q i < joint_position_min i) ∧
      ((i, Violation.maxVel) ∈ safetyChecks q dq tau ↔ |dq i| > joint_velocity_limits i) ∧
      ((i, Violation.maxTorque) ∈ safetyChecks q dq tau ↔ |tau i| > joint_torques_limits i)) ∧
    safetyChecks ![2.7 + 0.01, 0, 0, -1.6, 0, 1.9, 0] (fun _ => 0) (fun _ => 0) =
      [(0, Violation.maxPos)] := by
  constructor
  · intro q dq tau i
    refine ⟨?_, ?_, ?_, ?_⟩ <;>
    · simp only [safetyChecks, List.mem_flatMap, List.mem_finRange, true_and,
        List.mem_append, mem_ite_singleton, Prod.mk.injEq]
      constructor
      · rintro ⟨j, hj⟩
        rcases hj with ((⟨hp, hi, hv⟩ | ⟨hp, hi, hv⟩) | ⟨hp, hi, hv⟩) | ⟨hp, hi, hv⟩ <;>
          simp_all
      · intro hp
        refine ⟨i, ?_⟩
        simp [hp]
  · rw [safetyChecks, show List.finRange 7 = [0, 1, 2, 3, 4, 5, 6] from by decide]
    norm_num [joint_position_max, joint_position_min, joint_velocity_limits,
      joint_torques_limits, vecSeven0, vecSeven1, vecSeven2, vecSeven3, vecSeven4,
      vecSeven5, vecSeven6]

/-- C10 counterexample: a panda_starter_code execution that is cancelled
immediately performs no publish at all — in particular no final all-zero
torque publish — refuting the claim that the final zero publish happens in
every execution ending by cancellation. -/
theorem c10_counterexample_starter_no_final_publish :
    starterLoopPublishes [] = [] ∧ ([] : List (Fin 7 → ℚ)) ≠ [zeroTorques] :=
  ⟨rfl, by simp⟩

/-- C10 amended: on cancellation the panda_interface loop performs exactly
one final all-zero torque publish, after the per-tick publishes, in every
execution; the panda_starter_code loop publishes only during EXECUTE-mode
iterations and performs no final publish (it merely zeroes the local
vector). -/
theorem c10_final_zero_publish :
    (∀ taus : List (Fin 7 → ℚ), interfaceLoopPublishes taus = taus ++ [zeroTorques]) ∧
    (∀ ticks : List (Bool × (Fin 7 → ℚ)),
      starterLoopPublishes ticks = ticks.filterMap fun p => if p.1 then some p.2 else none) := by
  constructor
  · intro taus
    induction taus with
    | nil => rfl
    | cons a l ih => simp [interfaceLoopPublishes, ih]
  · intro ticks
    induction ticks with
    | nil => rfl
    | cons a l ih =>
        obtain ⟨b, tau⟩ := a
        cases b <;> simp [starterLoopPublishes, ih]

/-! ### Step characterization lemmas -/

theorem step_wait_stay (s : CState) (i : TickInput) (hm : s.mode = Mode.wait)
    (ht : ¬ i.token = "execute") : step s i = s := by
  simp [step, hm, ht]

theorem step_wait_activate (s : CState) (i : TickInput) (hm : s.mode = Mode.wait)
    (ht : i.token = "execute") :
    step s i = { s with mode := Mode.exec,
                        cueStartX := 0.001 * i.shotPosX,
                        cueStartY := 0.001 * i.shotPosY,
                        psi := i.shotAngle,
                        centershot := if i.shotAngle ≤ 1.571 ∧ i.shotAngle ≥ 1.569 then true
                                      else s.centershot } := by
  simp [step, hm, ht]

theorem step_joint_stay (s : CState) (i : TickInput) (hm : s.mode = Mode.exec)
    (hc : s.ctrl = Ctrl.joint) (hr : i.jointReached = false) :
    step s i = { s with counter := s.counter + 1 } := by
  simp [step, execStep, hm, hc, hr]

theorem step_joint_reach (s : CState) (i : TickInput) (hm : s.mode = Mode.exec)
    (hc : s.ctrl = Ctrl.joint) (hr : i.jointReached = true) :
    step s i = { s with ctrl := Ctrl.posori, counter := 1 } := by
  simp [step, execStep, hm, hc, hr]

theorem step_posori_quiet (s : CState) (i : TickInput) (hm : s.mode = Mode.exec)
    (hc : s.ctrl = Ctrl.posori)
    (h1 : ¬(i.goalReached = true ∧ (s.counter : ℚ) * dt > s.t4))
    (h2 : ¬((s.counter : ℚ) * dt > s.t3 ∧ (s.counter : ℚ) * dt < s.t3 + total_time)) :
    step s i = { s with counter := s.counter + 1 } := by
  simp [step, execStep, hm, hc, h1, h2]

theorem step_posori_to_shot (s : CState) (i : TickInput) (hm : s.mode = Mode.exec)
    (hc : s.ctrl = Ctrl.posori)
    (h1 : ¬(i.goalReached = true ∧ (s.counter : ℚ) * dt > s.t4))
    (h2 : (s.counter : ℚ) * dt > s.t3 ∧ (s.counter : ℚ) * dt < s.t3 + total_time) :
    step s i = { s with ctrl := Ctrl.shot, thetaMid := i.qLast, counter := s.counter + 1 } := by
  simp [step, execStep, hm, hc, h1, h2]

theorem step_posori_to_wait (s : CState) (i : TickInput) (hm : s.mode = Mode.exec)
    (hc : s.ctrl = Ctrl.posori)
    (h1 : i.goalReached = true ∧ (s.counter : ℚ) * dt > s.t4)
    (h2 : ¬((s.counter : ℚ) * dt > s.t3 ∧ (s.counter : ℚ) * dt < s.t3 + total_time)) :
    step s i = { s with mode := Mode.wait, ctrl := Ctrl.joint, counter := s.counter + 1 } := by
  simp [step, execStep, hm, hc, h1, h2]

theorem step_shot_stay (s : CState) (i : TickInput) (hm : s.mode = Mode.exec)
    (hc : s.ctrl = Ctrl.shot)
    (h : ¬((s.counter : ℚ) * dt > s.t4 + total_time)) :
    step s i = { s with counter := s.counter + 1 } := by
  simp [step, execStep, hm, hc, h]

theorem step_shot_exit (s : CState) (i : TickInput) (hm : s.mode = Mode.exec)
    (hc : s.ctrl = Ctrl.shot)
    (h : (s.counter : ℚ) * dt > s.t4 + total_time) :
    step s i = { s with centershot := false, ctrl := Ctrl.posori, counter := s.counter + 1 } := by
  simp [step, execStep, hm, hc, h]

theorem step_preserves_windows (s : CState) (i : TickInput) :
    (step s i).t0 = s.t0 ∧ (step s i).t1 = s.t1 ∧ (step s i).t2 = s.t2 ∧
    (step s i).t3 = s.t3 ∧ (step s i).t4 = s.t4 := by
  simp only [step, execStep]
  split_ifs <;> simp

theorem step_posori_wait_and_shot (s : CState) (i : TickInput) (hm : s.mode = Mode.exec)
    (hc : s.ctrl = Ctrl.posori)
    (h1 : i.goalReached = true ∧ (s.counter : ℚ) * dt > s.t4)
    (h2 : (s.counter : ℚ) * dt > s.t3 ∧ (s.counter : ℚ) * dt < s.t3 + total_time) :
    step s i = { s with mode := Mode.wait, ctrl := Ctrl.shot, thetaMid := i.qLast,
                        counter := s.counter + 1 } := by
  simp [step, execStep, hm, hc, h1, h2]

/-- C4 amended: across every run of the loop, none of the phase-window
boundaries `t_0 … t_4` is ever modified — every tick preserves all five
globals, so in particular no re-anchoring of `t_4` happens at the
SHOT→RETURN transition (the shot end is detected against the constant
`t_4 + total_time` on the never-reset phase clock). -/
theorem c4_amended_boundaries_never_written (s0 : CState) (inputs : ℕ → TickInput) (n : ℕ) :
    (trace s0 inputs n).t0 = s0.t0 ∧ (trace s0 inputs n).t1 = s0.t1 ∧
    (trace s0 inputs n).t2 = s0.t2 ∧ (trace s0 inputs n).t3 = s0.t3 ∧
    (trace s0 inputs n).t4 = s0.t4 := by
  induction n with
  | zero => exact ⟨rfl, rfl, rfl, rfl, rfl⟩
  | succ n ih =>
      have h := step_preserves_windows (trace s0 inputs n) (inputs n)
      exact ⟨h.1.trans ih.1, h.2.1.trans ih.2.1, h.2.2.1.trans ih.2.2.1,
             h.2.2.2.1.trans ih.2.2.2.1, h.2.2.2.2.trans ih.2.2.2.2⟩

/-- C4 counterexample: at a SHOT→RETURN transition tick (counter 14301,
phase time 14.301 > t_4 + total_time = 14.3) the boundary `t_4` is left
exactly as it was (13): the claimed one-time re-anchoring of `t_4` at this
transition does not happen. -/
theorem c4_counterexample_shot_exit_t4_unchanged :
    ({ initState with mode := Mode.exec, ctrl := Ctrl.shot, counter := 14301 } : CState).ctrl
        = Ctrl.shot ∧
    (step { initState with mode := Mode.exec, ctrl := Ctrl.shot, counter := 14301 }
        ⟨"", 0, 0, 0, false, false, 0⟩).ctrl = Ctrl.posori ∧
    (step { initState with mode := Mode.exec, ctrl := Ctrl.shot, counter := 14301 }
        ⟨"", 0, 0, 0, false, false, 0⟩).t4 = 13 ∧
    ({ initState with mode := Mode.exec, ctrl := Ctrl.shot, counter := 14301 } : CState).t4 = 13 := by
  refine ⟨rfl, ?_, ?_, rfl⟩ <;>
    (rw [step_shot_exit _ _ rfl rfl (by norm_num [initState, dt, total_time])]; try rfl)

/-- C5: while Mode = WAIT, a tick transitions to EXECUTE iff the activation
token read from the external store equals exactly `"execute"`; for every
other token value the whole state is unchanged — in particular no shot
parameters are captured. -/
theorem c5_wait_transition_iff (s : CState) (i : TickInput) (h : s.mode = Mode.wait) :
    ((step s i).mode = Mode.exec ↔ i.token = "execute") ∧
    (i.token ≠ "execute" → step s i = s) := by
  by_cases ht : i.token = "execute"
  · rw [step_wait_activate s i h ht]
    simp [ht]
  · rw [step_wait_stay s i h ht]
    simp [h, ht]

theorem c5_wait_transition_iff_witness :
    initState.mode = Mode.wait ∧
    (((step initState ⟨"Execute", 0, 0, 0, false, false, 0⟩).mode = Mode.exec ↔
        (⟨"Execute", 0, 0, 0, false, false, 0⟩ : TickInput).token = "execute") ∧
     ((⟨"Execute", 0, 0, 0, false, false, 0⟩ : TickInput).token ≠ "execute" →
        step initState ⟨"Execute", 0, 0, 0, false, false, 0⟩ = initState)) :=
  ⟨rfl, c5_wait_transition_iff initState ⟨"Execute", 0, 0, 0, false, false, 0⟩ rfl⟩

/-- a state stalled in the RETURN phase: EXECUTE mode, POSORI controller,
phase time 20 s, convergence never attained. -/
def stalledState : CState :=
  { initState with mode := Mode.exec, ctrl := Ctrl.posori, counter := 20000 }

def stalledInput : TickInput := ⟨"wait", 0, 0, 0, false, false, 0⟩

/-- C6 amended: while Mode = EXECUTE there is no automatic recovery and no
external override: the next tick's Mode is WAIT exactly when the RETURN
convergence condition holds (POSORI phase, goal-reached predicate true,
phase time past t4), and the activation token is never read in EXECUTE mode
(the step is invariant under changing it), so a stalled phase persists
regardless of what an operator writes to the token. -/
theorem c6_amended_execute_stall (s : CState) (i : TickInput) (h : s.mode = Mode.exec) :
    ((step s i).mode = Mode.wait ↔
      s.ctrl = Ctrl.posori ∧ i.goalReached = true ∧ (s.counter : ℚ) * dt > s.t4) ∧
    (∀ tok : String, step s { i with token := tok } = step s i) := by
  constructor
  · rcases hc : s.ctrl with _ | _ | _
    · cases hr : i.jointReached
      · rw [step_joint_stay s i h hc hr]; simp [h, hc]
      · rw [step_joint_reach s i h hc hr]; simp [h, hc]
    · by_cases h1 : i.goalReached = true ∧ (s.counter : ℚ) * dt > s.t4
      · by_cases h2 : (s.counter : ℚ) * dt > s.t3 ∧ (s.counter : ℚ) * dt < s.t3 + total_time
        · rw [step_posori_wait_and_shot s i h hc h1 h2]; simp [hc, h1.1, h1.2]
        · rw [step_posori_to_wait s i h hc h1 h2]; simp [hc, h1.1, h1.2]
      · by_cases h2 : (s.counter : ℚ) * dt > s.t3 ∧ (s.counter : ℚ) * dt < s.t3 + total_time
        · rw [step_posori_to_shot s i h hc h1 h2]; simp [h, hc, h1]
        · rw [step_posori_quiet s i h hc h1 h2]; simp [h, hc, h1]
    · by_cases hx : (s.counter : ℚ) * dt > s.t4 + total_time
      · rw [step_shot_exit s i h hc hx]; simp [h, hc]
      · rw [step_shot_stay s i h hc hx]; simp [h, hc]
  · intro tok
    simp [step, execStep, h]

theorem c6_amended_execute_stall_witness :
    stalledState.mode = Mode.exec ∧
    (((step stalledState stalledInput).mode = Mode.wait ↔
        stalledState.ctrl = Ctrl.posori ∧ stalledInput.goalReached = true ∧
          (stalledState.counter : ℚ) * dt > stalledState.t4) ∧
     (∀ tok : String, step stalledState { stalledInput with token := tok }
        = step stalledState stalledInput)) :=
  ⟨rfl, c6_amended_execute_stall stalledState stalledInput rfl⟩

/-- C6 counterexample: from the stalled EXECUTE state (POSORI/RETURN phase,
convergence predicate false), no value written to the activation token makes
the next tick return Mode to WAIT — the token is not read in EXECUTE mode,
contradicting the claim that some token value forces WAIT. -/
theorem c6_counterexample_no_token_forces_wait :
    ¬ ∃ tok : String,
      (step stalledState { stalledInput with token := tok }).mode = Mode.wait := by
  rintro ⟨tok, hmode⟩
  have h1 : ¬(({ stalledInput with token := tok } : TickInput).goalReached = true ∧
      (stalledState.counter : ℚ) * dt > stalledState.t4) := by
    simp [stalledInput]
  have h2 : ¬((stalledState.counter : ℚ) * dt > stalledState.t3 ∧
      (stalledState.counter : ℚ) * dt < stalledState.t3 + total_time) := by
    norm_num [stalledState, initState, dt, total_time]
  rw [step_posori_quiet _ _ rfl rfl h1 h2] at hmode
  simp [stalledState, initState] at hmode

/-- C7 (evaluating the activation-time derivation, lines 255-262): the
derived swing amplitude is the well-defined constant `(120·π/180)/2`, but the
derived angular rate depends on the residual value of the never-assigned
`hit_velocity` — two activations with identical externally supplied shot
parameters but different residual values yield different rates, so the rate
is not a function of the external shot parameters. -/
theorem c7_rate_depends_on_uninitialized_hit_velocity :
    (captureDerived 1).1 = (captureDerived 2).1 ∧
    (captureDerived 1).2 ≠ (captureDerived 2).2 := by
  refine ⟨rfl, ?_⟩
  simp only [captureDerived]
  have hL : ee_length ≠ 0 := by norm_num [ee_length]
  have hA : (0 : ℝ) < 120 * π / 180 / 2 := by positivity
  intro h
  field_simp [hL, hA.ne'] at h

/-! ### Trajectory continuity at the window boundaries (C3) -/

theorem cos_neg_pi_div_four : Real.cos (-π / 4) = Real.sqrt 2 / 2 := by
  rw [neg_div, Real.cos_neg, Real.cos_pi_div_four]

theorem sin_neg_pi_div_four : Real.sin (-π / 4) = -(Real.sqrt 2 / 2) := by
  rw [neg_div, Real.sin_neg, Real.sin_pi_div_four]

/-- the arc parametrization starts at the pickup angle `-π/4`: the `atan2` of
the pickup point relative to the board-frame origin recovers the angle the
pickup point was built from. -/
theorem atan2_pickup : atan2 (xc 0 - x_offset) (xc 1 - y_offset) = -π / 4 := by
  have hy : xc 0 - x_offset = board_r * sin (-π / 4) := by simp [xc]
  have hx : xc 1 - y_offset = board_r * cos (-π / 4) := by simp [xc]
  have hs2 : (0:ℝ) < Real.sqrt 2 := Real.sqrt_pos.mpr (by norm_num)
  have hcpos : (0:ℝ) < board_r * Real.cos (-π / 4) := by
    rw [cos_neg_pi_div_four]
    have : (0:ℝ) < board_r := by norm_num [board_r]
    positivity
  rw [hy, hx, atan2, if_pos hcpos]
  have hratio : board_r * Real.sin (-π / 4) / (board_r * Real.cos (-π / 4)) = -1 := by
    rw [cos_neg_pi_div_four, sin_neg_pi_div_four]
    have hb : board_r ≠ 0 := by norm_num [board_r]
    field_simp
    ring
  rw [hratio, show (-1:ℝ) = -(1:ℝ) from rfl, Real.arctan_neg, Real.arctan_one]
  ring

theorem continuous_Rz : Continuous Rz := by
  apply continuous_matrix
  intro i j
  fin_cases i <;> fin_cases j <;> simp [Rz] <;> fun_prop

/-- the position commanded at the `t_1` boundary is exactly the pickup
position `xc` (the arc segment evaluated at its start). -/
theorem point_at_t1 (cue : Fin 4 → ℝ) : calculatePointInTrajectory cue 4 = xc := by
  have h0 : ¬ inRange 4 t_0 t_1 := by norm_num [inRange, t_0, t_1]
  have h1 : inRange 4 t_1 t_2 := by norm_num [inRange, t_1, t_2]
  simp only [calculatePointInTrajectory, h0, if_false, h1, if_true, if_neg, if_pos]
  rw [show ((4:ℝ) - t_1) = 0 by rw [t_1]; ring]
  rw [zero_mul, zero_div, zero_add, atan2_pickup]
  funext i
  fin_cases i <;> simp [xc]

theorem point_left_limit_t1 (cue : Fin 4 → ℝ) :
    Tendsto (calculatePointInTrajectory cue) (nhdsWithin 4 (Set.Iio 4))
      (nhds (calculatePointInTrajectory cue 4)) := by
  rw [point_at_t1 cue]
  have hseg : Continuous fun t : ℝ => (fun i => xh i + (xc i - xh i) * (t - t_0) / (t_1 - t_0) :
      Fin 3 → ℝ) := by
    apply continuous_pi
    intro i
    fun_prop
  have hlim := hseg.tendsto 4
  have hv : (fun i => xh i + (xc i - xh i) * ((4:ℝ) - t_0) / (t_1 - t_0)) = xc := by
    funext i
    rw [t_0, t_1]
    ring
  rw [hv] at hlim
  apply Tendsto.congr' _ (hlim.mono_left nhdsWithin_le_nhds)
  filter_upwards [Ioo_mem_nhdsWithin_Iio (by norm_num : (4:ℝ) ∈ Set.Ioc 0 4)] with t ht
  have h0 : inRange t t_0 t_1 := ⟨by simpa [t_1] using ht.2, by simp only [t_0]; linarith [ht.1]⟩
  simp [calculatePointInTrajectory, h0]

theorem point_left_limit_t3 (cue : Fin 4 → ℝ) :
    Tendsto (calculatePointInTrajectory cue) (nhdsWithin 12 (Set.Iio 12))
      (nhds (calculatePointInTrajectory cue 12)) := by
  have hval : calculatePointInTrajectory cue 12 = xcd cue := by
    have h0 : ¬ inRange 12 t_0 t_1 := by norm_num [inRange, t_0, t_1]
    have h1 : ¬ inRange 12 t_1 t_2 := by norm_num [inRange, t_1, t_2]
    have h2 : ¬ inRange 12 t_2 t_3 := by norm_num [inRange, t_2, t_3]
    have h3 : inRange 12 t_3 t_4 := by norm_num [inRange, t_3, t_4]
    simp [calculatePointInTrajectory, h0, h1, h2, h3]
  rw [hval]
  apply Tendsto.congr' _ tendsto_const_nhds
  filter_upwards [Ioo_mem_nhdsWithin_Iio (by norm_num : (12:ℝ) ∈ Set.Ioc 8 12)] with t ht
  have h0 : ¬ inRange t t_0 t_1 := by
    simp only [inRange, t_0, t_1]; rintro ⟨hlt, hge⟩; linarith [ht.1]
  have h1 : ¬ inRange t t_1 t_2 := by
    simp only [inRange, t_1, t_2]; rintro ⟨hlt, hge⟩; linarith [ht.1]
  have h2 : inRange t t_2 t_3 := ⟨by simpa [t_3] using ht.2, by simp only [t_2]; linarith [ht.1]⟩
  simp [calculatePointInTrajectory, h0, h1, h2]

theorem rot_left_limit_t1 (psi : ℝ) :
    Tendsto (fun t => calculateRotationInTrajectory t psi)
      (nhdsWithin 4 (Set.Iio 4)) (nhds (calculateRotationInTrajectory 4 psi)) := by
  have hval : calculateRotationInTrajectory 4 psi = Rz (-π / 4) * home_orientation := by
    have h0 : ¬ inRange 4 t_0 t_1 := by norm_num [inRange, t_0, t_1]
    have h1 : inRange 4 t_1 t_2 := by norm_num [inRange, t_1, t_2]
    simp [calculateRotationInTrajectory, h0, h1]
  rw [hval]
  have hseg : Continuous fun t : ℝ => Rz (-π / 4 * (t - t_0) / (t_1 - t_0)) * home_orientation := by
    apply Continuous.matrix_mul _ continuous_const
    apply continuous_Rz.comp
    fun_prop
  have hlim := hseg.tendsto 4
  rw [show -π / 4 * ((4:ℝ) - t_0) / (t_1 - t_0) = -π / 4 by rw [t_0, t_1]; ring] at hlim
  apply Tendsto.congr' _ (hlim.mono_left nhdsWithin_le_nhds)
  filter_upwards [Ioo_mem_nhdsWithin_Iio (by norm_num : (4:ℝ) ∈ Set.Ioc 0 4)] with t ht
  have h0 : inRange t t_0 t_1 := ⟨by simpa [t_1] using ht.2, by simp only [t_0]; linarith [ht.1]⟩
  simp [calculateRotationInTrajectory, h0]

theorem rot_left_limit_t3 (psi : ℝ) :
    Tendsto (fun t => calculateRotationInTrajectory t psi)
      (nhdsWithin 12 (Set.Iio 12)) (nhds (calculateRotationInTrajectory 12 psi)) := by
  have hval : calculateRotationInTrajectory 12 psi = Rz (-π / 2 + psi) * home_orientation := by
    have h0 : ¬ inRange 12 t_0 t_1 := by norm_num [inRange, t_0, t_1]
    have h1 : ¬ inRange 12 t_1 t_2 := by norm_num [inRange, t_1, t_2]
    have h2 : ¬ inRange 12 t_2 t_3 := by norm_num [inRange, t_2, t_3]
    have h3 : inRange 12 t_3 t_4 := by norm_num [inRange, t_3, t_4]
    simp [calculateRotationInTrajectory, h0, h1, h2, h3]
  rw [hval]
  apply Tendsto.congr' _ tendsto_const_nhds
  filter_upwards [Ioo_mem_nhdsWithin_Iio (by norm_num : (12:ℝ) ∈ Set.Ioc 8 12)] with t ht
  have h0 : ¬ inRange t t_0 t_1 := by
    simp only [inRange, t_0, t_1]; rintro ⟨hlt, hge⟩; linarith [ht.1]
  have h1 : ¬ inRange t t_1 t_2 := by
    simp only [inRange, t_1, t_2]; rintro ⟨hlt, hge⟩; linarith [ht.1]
  have h2 : inRange t t_2 t_3 := ⟨by simpa [t_3] using ht.2, by simp only [t_2]; linarith [ht.1]⟩
  simp [calculateRotationInTrajectory, h0, h1, h2]

theorem rot_left_limit_t2 (psi : ℝ) :
    Tendsto (fun t => calculateRotationInTrajectory t psi)
      (nhdsWithin 8 (Set.Iio 8)) (nhds (Rz (-π / 4) * home_orientation)) := by
  apply Tendsto.congr' _ tendsto_const_nhds
  filter_upwards [Ioo_mem_nhdsWithin_Iio (by norm_num : (8:ℝ) ∈ Set.Ioc 4 8)] with t ht
  have h0 : ¬ inRange t t_0 t_1 := by
    simp only [inRange, t_0, t_1]
    rintro ⟨hlt, hge⟩
    exact absurd ht.1 (by linarith)
  have h1 : inRange t t_1 t_2 := ⟨by simpa [t_2] using ht.2, by simp only [t_1]; linarith [ht.1]⟩
  simp [calculateRotationInTrajectory, h0, h1]

theorem rot_at_t2 (psi : ℝ) :
    calculateRotationInTrajectory 8 psi = Rz (-π / 2 + psi) * home_orientation := by
  have h0 : ¬ inRange 8 t_0 t_1 := by norm_num [inRange, t_0, t_1]
  have h1 : ¬ inRange 8 t_1 t_2 := by norm_num [inRange, t_1, t_2]
  have h2 : inRange 8 t_2 t_3 := by norm_num [inRange, t_2, t_3]
  simp [calculateRotationInTrajectory, h0, h1, h2]

theorem Rz_zero_mul_home_00 : (Rz 0 * home_orientation) 0 0 = 0.7360145 := by
  simp [Rz, home_orientation, Matrix.mul_apply, Fin.sum_univ_three]

theorem Rz_mul_home_00 (θ : ℝ) : (Rz θ * home_orientation) 0 0
    = Real.cos θ * 0.7360145 + Real.sin θ * 0.0413102 := by
  simp [Rz, home_orientation, Matrix.mul_apply, Fin.sum_univ_three]

theorem sqrt_two_lt : Real.sqrt 2 < 1.4143 :=
  (Real.sqrt_lt' (by norm_num)).mpr (by norm_num)

/-- C3 counterexample: with the spec's own scenario strike angle ψ = π/2
(the perpendicular strike) the commanded orientation jumps at the `t_2`
boundary: the left limit of the orientation trajectory as `t ↑ 8` is
`Rz(-π/4)·home_orientation`, while the value at `t = 8` is
`Rz(0)·home_orientation`, and already their (0,0) entries differ by about
`0.245`, far beyond the `1e-6` tolerance — so the desired pose does have a
discontinuous jump at a phase-window boundary. -/
theorem c3_counterexample_orientation_jump_at_t2 :
    Tendsto (fun t => calculateRotationInTrajectory t (π / 2))
      (nhdsWithin 8 (Set.Iio 8)) (nhds (Rz (-π / 4) * home_orientation)) ∧
    calculateRotationInTrajectory 8 (π / 2) 0 0
      - (Rz (-π / 4) * home_orientation) 0 0 > 1e-6 := by
  refine ⟨rot_left_limit_t2 (π / 2), ?_⟩
  rw [rot_at_t2, show -π / 2 + π / 2 = (0:ℝ) by ring, Rz_zero_mul_home_00,
    Rz_mul_home_00, cos_neg_pi_div_four, sin_neg_pi_div_four]
  have h1 : Real.sqrt 2 * 0.6947043 < 1.4143 * 0.6947043 :=
    mul_lt_mul_of_pos_right sqrt_two_lt (by norm_num)
  nlinarith [Real.sqrt_nonneg 2]

/-- C3 amended: the commanded position and orientation are continuous at the
`t_1` and `t_3` boundaries — for every strike angle ψ and drop-off position
the left limit equals the boundary value — but not at `t_2`, where the
orientation (and, for off-circle drop-offs, the position) jumps, as the
counterexample shows. -/
theorem c3_amended_left_limits_t1_t3 (psi : ℝ) (cue : Fin 4 → ℝ) :
    Tendsto (calculatePointInTrajectory cue) (nhdsWithin 4 (Set.Iio 4))
      (nhds (calculatePointInTrajectory cue 4)) ∧
    Tendsto (calculatePointInTrajectory cue) (nhdsWithin 12 (Set.Iio 12))
      (nhds (calculatePointInTrajectory cue 12)) ∧
    Tendsto (fun t => calculateRotationInTrajectory t psi) (nhdsWithin 4 (Set.Iio 4))
      (nhds (calculateRotationInTrajectory 4 psi)) ∧
    Tendsto (fun t => calculateRotationInTrajectory t psi) (nhdsWithin 12 (Set.Iio 12))
      (nhds (calculateRotationInTrajectory 12 psi)) :=
  ⟨point_left_limit_t1 cue, point_left_limit_t3 cue,
   rot_left_limit_t1 psi, rot_left_limit_t3 psi⟩

/-! ### The EXECUTE-cycle phase order (C1) -/

theorem trace_shift (s0 : CState) (inputs : ℕ → TickInput) (m j : ℕ) :
    trace s0 inputs (m + j) = trace (trace s0 inputs m) (fun k => inputs (m + k)) j := by
  induction j with
  | zero => rfl
  | succ j ih =>
      show step (trace s0 inputs (m + j)) (inputs (m + j)) = _
      rw [ih]
      rfl

-- approach segment
theorem approach_run (s : CState) (ins : ℕ → TickInput)
    (hm : s.mode = Mode.exec) (hc : s.ctrl = Ctrl.joint) :
    ∀ k, (∀ j, j < k → (ins j).jointReached = false) →
      trace s ins k = { s with counter := s.counter + k } := by
  intro k
  induction k with
  | zero => intro _; rfl
  | succ k ih =>
      intro hquiet
      have hk := ih (fun j hj => hquiet j (Nat.lt_succ_of_lt hj))
      have hM : (trace s ins k).mode = Mode.exec := by rw [hk]; exact hm
      have hC : (trace s ins k).ctrl = Ctrl.joint := by rw [hk]; exact hc
      show step (trace s ins k) (ins k) = _
      rw [step_joint_stay _ _ hM hC (hquiet k (Nat.lt_succ_self k)), hk]
      simp [Nat.add_assoc]

-- track segment
theorem track_run (s : CState) (ins : ℕ → TickInput)
    (hm : s.mode = Mode.exec) (hc : s.ctrl = Ctrl.posori)
    (ht3 : s.t3 = 12) (ht4 : s.t4 = 13) :
    ∀ j, s.counter + j ≤ 12001 →
      trace s ins j = { s with counter := s.counter + j } := by
  intro j
  induction j with
  | zero => intro _; rfl
  | succ j ih =>
      intro hle
      have hk := ih (by omega)
      have hM : (trace s ins j).mode = Mode.exec := by rw [hk]; exact hm
      have hC : (trace s ins j).ctrl = Ctrl.posori := by rw [hk]; exact hc
      have hcnt : (trace s ins j).counter = s.counter + j := by rw [hk]
      have hT3 : (trace s ins j).t3 = 12 := by rw [hk]; exact ht3
      have hT4 : (trace s ins j).t4 = 13 := by rw [hk]; exact ht4
      have hct : ((s.counter + j : ℕ) : ℚ) * dt ≤ 12 := by
        have h1 : (s.counter + j : ℕ) ≤ 12000 := by omega
        have h2 : ((s.counter + j : ℕ) : ℚ) ≤ 12000 := by exact_mod_cast h1
        rw [dt]
        linarith
      have h1 : ¬((ins j).goalReached = true ∧
          ((trace s ins j).counter : ℚ) * dt > (trace s ins j).t4) := by
        rintro ⟨-, hgt⟩
        rw [hcnt, hT4] at hgt
        push_cast at hgt hct
        linarith
      have h2 : ¬(((trace s ins j).counter : ℚ) * dt > (trace s ins j).t3 ∧
          ((trace s ins j).counter : ℚ) * dt < (trace s ins j).t3 + total_time) := by
        rintro ⟨hgt, -⟩
        rw [hcnt, hT3] at hgt
        push_cast at hgt hct
        linarith
      show step (trace s ins j) (ins j) = _
      rw [step_posori_quiet _ _ hM hC h1 h2, hk]
      simp [Nat.add_assoc]

theorem shot_run (s : CState) (ins : ℕ → TickInput)
    (hm : s.mode = Mode.exec) (hc : s.ctrl = Ctrl.shot) (ht4 : s.t4 = 13) :
    ∀ j, s.counter + j ≤ 14301 →
      trace s ins j = { s with counter := s.counter + j } := by
  intro j
  induction j with
  | zero => intro _; rfl
  | succ j ih =>
      intro hle
      have hk := ih (by omega)
      have hM : (trace s ins j).mode = Mode.exec := by rw [hk]; exact hm
      have hC : (trace s ins j).ctrl = Ctrl.shot := by rw [hk]; exact hc
      have hcnt : (trace s ins j).counter = s.counter + j := by rw [hk]
      have hT4 : (trace s ins j).t4 = 13 := by rw [hk]; exact ht4
      have hct : ((s.counter + j : ℕ) : ℚ) * dt ≤ 14.3 := by
        have h1 : (s.counter + j : ℕ) ≤ 14300 := by omega
        have h2 : ((s.counter + j : ℕ) : ℚ) ≤ 14300 := by exact_mod_cast h1
        rw [dt]
        linarith
      have h : ¬(((trace s ins j).counter : ℚ) * dt > (trace s ins j).t4 + total_time) := by
        intro hgt
        rw [hcnt, hT4, total_time] at hgt
        push_cast at hgt hct
        linarith
      show step (trace s ins j) (ins j) = _
      rw [step_shot_stay _ _ hM hC h, hk]
      simp [Nat.add_assoc]

theorem return_run (s : CState) (ins : ℕ → TickInput)
    (hm : s.mode = Mode.exec) (hc : s.ctrl = Ctrl.posori)
    (ht3 : s.t3 = 12) (hbig : 13300 ≤ s.counter) :
    ∀ j, (∀ i, i < j → (ins i).goalReached = false) →
      trace s ins j = { s with counter := s.counter + j } := by
  intro j
  induction j with
  | zero => intro _; rfl
  | succ j ih =>
      intro hquiet
      have hk := ih (fun i hi => hquiet i (Nat.lt_succ_of_lt hi))
      have hM : (trace s ins j).mode = Mode.exec := by rw [hk]; exact hm
      have hC : (trace s ins j).ctrl = Ctrl.posori := by rw [hk]; exact hc
      have hcnt : (trace s ins j).counter = s.counter + j := by rw [hk]
      have hT3 : (trace s ins j).t3 = 12 := by rw [hk]; exact ht3
      have hct : (13.3 : ℚ) ≤ ((s.counter + j : ℕ) : ℚ) * dt := by
        have h1 : (13300 : ℕ) ≤ (s.counter + j : ℕ) := by omega
        have h2 : (13300 : ℚ) ≤ ((s.counter + j : ℕ) : ℚ) := by exact_mod_cast h1
        rw [dt]
        linarith
      have h1 : ¬((ins j).goalReached = true ∧
          ((trace s ins j).counter : ℚ) * dt > (trace s ins j).t4) := by
        rintro ⟨hg, -⟩
        rw [hquiet j (Nat.lt_succ_self j)] at hg
        exact Bool.false_ne_true hg
      have h2 : ¬(((trace s ins j).counter : ℚ) * dt > (trace s ins j).t3 ∧
          ((trace s ins j).counter : ℚ) * dt < (trace s ins j).t3 + total_time) := by
        rintro ⟨-, hlt⟩
        rw [hcnt, hT3, total_time] at hlt
        push_cast at hlt hct
        linarith
      show step (trace s ins j) (ins j) = _
      rw [step_posori_quiet _ _ hM hC h1 h2, hk]
      simp [Nat.add_assoc]

/-- C1: for every EXECUTE cycle of the panda_interface loop — starting in
EXECUTE mode, APPROACH (JOINT_CONTROLLER) phase, with the program's window
boundaries t3 = 12, t4 = 13 — driven by the monotonically increasing tick
clock, if the joint-reached and goal-reached transition conditions each hold
eventually (from every tick on), then the phase variable passes through
APPROACH (joint), TRACK (posori), SHOT, RETURN (posori) in that order as
four contiguous segments, each visited exactly once with no revisiting, and
afterwards Mode returns to WAIT with the phase reset to APPROACH. -/
theorem c1_execute_cycle_phase_order (s0 : CState) (inputs : ℕ → TickInput)
    (hm : s0.mode = Mode.exec) (hc : s0.ctrl = Ctrl.joint)
    (ht3 : s0.t3 = 12) (ht4 : s0.t4 = 13)
    (hj : ∀ n, ∃ m, n ≤ m ∧ (inputs m).jointReached = true)
    (hg : ∀ n, ∃ m, n ≤ m ∧ (inputs m).goalReached = true) :
    ∃ n1 n2 n3 n4 : ℕ, n1 < n2 ∧ n2 < n3 ∧ n3 < n4 ∧
      (∀ k, k < n1 →
        (trace s0 inputs k).mode = Mode.exec ∧ (trace s0 inputs k).ctrl = Ctrl.joint) ∧
      (∀ k, n1 ≤ k → k < n2 →
        (trace s0 inputs k).mode = Mode.exec ∧ (trace s0 inputs k).ctrl = Ctrl.posori) ∧
      (∀ k, n2 ≤ k → k < n3 →
        (trace s0 inputs k).mode = Mode.exec ∧ (trace s0 inputs k).ctrl = Ctrl.shot) ∧
      (∀ k, n3 ≤ k → k < n4 →
        (trace s0 inputs k).mode = Mode.exec ∧ (trace s0 inputs k).ctrl = Ctrl.posori) ∧
      ((trace s0 inputs n4).mode = Mode.wait ∧ (trace s0 inputs n4).ctrl = Ctrl.joint) := by
  -- Phase APPROACH: run until the first tick whose joint-reached condition holds.
  have hex : ∃ m, (inputs m).jointReached = true := (hj 0).imp fun m h => h.2
  set a := Nat.find hex with ha
  have hA : ∀ k, k ≤ a → trace s0 inputs k = { s0 with counter := s0.counter + k } := by
    intro k hk
    apply approach_run s0 inputs hm hc
    intro j hj'
    have := Nat.find_min hex (lt_of_lt_of_le hj' hk)
    simpa using this
  have hAstate := hA a le_rfl
  have hMa : (trace s0 inputs a).mode = Mode.exec := by rw [hAstate]; exact hm
  have hCa : (trace s0 inputs a).ctrl = Ctrl.joint := by rw [hAstate]; exact hc
  have hra : (inputs a).jointReached = true := Nat.find_spec hex
  -- APPROACH → TRACK
  have hB0 : trace s0 inputs (a + 1) = { s0 with ctrl := Ctrl.posori, counter := 1 } := by
    show step (trace s0 inputs a) (inputs a) = _
    rw [step_joint_reach _ _ hMa hCa hra, hAstate]
  -- Phase TRACK: the clock runs from 1 to 12001.
  have hBrun : ∀ j, j ≤ 12000 →
      trace s0 inputs (a + 1 + j) = { s0 with ctrl := Ctrl.posori, counter := 1 + j } := by
    intro j hj'
    have hrun := track_run { s0 with ctrl := Ctrl.posori, counter := 1 }
      (fun k => inputs (a + 1 + k)) hm rfl ht3 ht4 j (by show 1 + j ≤ 12001; omega)
    rw [trace_shift s0 inputs (a + 1) j, hB0, hrun]
  have hBend := hBrun 12000 le_rfl
  have hMb : (trace s0 inputs (a + 1 + 12000)).mode = Mode.exec := by rw [hBend]; exact hm
  have hCb : (trace s0 inputs (a + 1 + 12000)).ctrl = Ctrl.posori := by rw [hBend]
  have hcntb : (trace s0 inputs (a + 1 + 12000)).counter = 12001 := by rw [hBend]
  have hT3b : (trace s0 inputs (a + 1 + 12000)).t3 = 12 := by rw [hBend]; exact ht3
  have hT4b : (trace s0 inputs (a + 1 + 12000)).t4 = 13 := by rw [hBend]; exact ht4
  have h1b : ¬((inputs (a + 1 + 12000)).goalReached = true ∧
      ((trace s0 inputs (a + 1 + 12000)).counter : ℚ) * dt
        > (trace s0 inputs (a + 1 + 12000)).t4) := by
    rintro ⟨-, hgt⟩
    rw [hcntb, hT4b] at hgt
    norm_num [dt] at hgt
  have h2b : ((trace s0 inputs (a + 1 + 12000)).counter : ℚ) * dt
        > (trace s0 inputs (a + 1 + 12000)).t3 ∧
      ((trace s0 inputs (a + 1 + 12000)).counter : ℚ) * dt
        < (trace s0 inputs (a + 1 + 12000)).t3 + total_time := by
    rw [hcntb, hT3b]
    norm_num [dt, total_time]
  -- TRACK → SHOT
  have hC0 : trace s0 inputs (a + 12002) =
      { s0 with ctrl := Ctrl.shot, thetaMid := (inputs (a + 1 + 12000)).qLast,
                counter := 12002 } := by
    have he : a + 12002 = a + 1 + 12000 + 1 := by omega
    rw [he]
    show step (trace s0 inputs (a + 1 + 12000)) (inputs (a + 1 + 12000)) = _
    rw [step_posori_to_shot _ _ hMb hCb h1b h2b, hBend]
  -- Phase SHOT: the clock runs from 12002 to 14301.
  have hCrun : ∀ j, j ≤ 2299 →
      trace s0 inputs (a + 12002 + j) =
        { s0 with ctrl := Ctrl.shot, thetaMid := (inputs (a + 1 + 12000)).qLast,
                  counter := 12002 + j } := by
    intro j hj'
    have hrun := shot_run
      { s0 with ctrl := Ctrl.shot, thetaMid := (inputs (a + 1 + 12000)).qLast, counter := 12002 }
      (fun k => inputs (a + 12002 + k)) hm rfl ht4 j (by show 12002 + j ≤ 14301; omega)
    rw [trace_shift s0 inputs (a + 12002) j, hC0, hrun]
  have hCend := hCrun 2299 le_rfl
  have hMc : (trace s0 inputs (a + 12002 + 2299)).mode = Mode.exec := by rw [hCend]; exact hm
  have hCc : (trace s0 inputs (a + 12002 + 2299)).ctrl = Ctrl.shot := by rw [hCend]
  have hcntc : (trace s0 inputs (a + 12002 + 2299)).counter = 14301 := by rw [hCend]
  have hT4c : (trace s0 inputs (a + 12002 + 2299)).t4 = 13 := by rw [hCend]; exact ht4
  have hxc : ((trace s0 inputs (a + 12002 + 2299)).counter : ℚ) * dt
      > (trace s0 inputs (a + 12002 + 2299)).t4 + total_time := by
    rw [hcntc, hT4c]
    norm_num [dt, total_time]
  -- SHOT → RETURN
  have hD0 : trace s0 inputs (a + 14302) =
      { s0 with ctrl := Ctrl.posori, thetaMid := (inputs (a + 1 + 12000)).qLast,
                centershot := false, counter := 14302 } := by
    have he : a + 14302 = a + 12002 + 2299 + 1 := by omega
    rw [he]
    show step (trace s0 inputs (a + 12002 + 2299)) (inputs (a + 12002 + 2299)) = _
    rw [step_shot_exit _ _ hMc hCc hxc, hCend]
  -- Phase RETURN: run until the first tick at or after a+14302 whose
  -- goal-reached condition holds.
  have hexg : ∃ j, (inputs (a + 14302 + j)).goalReached = true := by
    obtain ⟨m, hbm, hq⟩ := hg (a + 14302)
    exact ⟨m - (a + 14302), by rwa [show a + 14302 + (m - (a + 14302)) = m by omega]⟩
  set b := Nat.find hexg with hb
  have hDrun : ∀ j, j ≤ b →
      trace s0 inputs (a + 14302 + j) =
        { s0 with ctrl := Ctrl.posori, thetaMid := (inputs (a + 1 + 12000)).qLast,
                  centershot := false, counter := 14302 + j } := by
    intro j hj'
    have hrun := return_run
      { s0 with ctrl := Ctrl.posori, thetaMid := (inputs (a + 1 + 12000)).qLast, centershot := false, counter := 14302 }
      (fun k => inputs (a + 14302 + k)) hm rfl ht3 (by show (13300:ℕ) ≤ 14302; omega) j
      (fun i hi => by
        have := Nat.find_min hexg (lt_of_lt_of_le hi hj')
        simpa using this)
    rw [trace_shift s0 inputs (a + 14302) j, hD0, hrun]
  have hDend := hDrun b le_rfl
  have hMd : (trace s0 inputs (a + 14302 + b)).mode = Mode.exec := by rw [hDend]; exact hm
  have hCd : (trace s0 inputs (a + 14302 + b)).ctrl = Ctrl.posori := by rw [hDend]
  have hcntd : (trace s0 inputs (a + 14302 + b)).counter = 14302 + b := by rw [hDend]
  have hT3d : (trace s0 inputs (a + 14302 + b)).t3 = 12 := by rw [hDend]; exact ht3
  have hT4d : (trace s0 inputs (a + 14302 + b)).t4 = 13 := by rw [hDend]; exact ht4
  have hgb : (inputs (a + 14302 + b)).goalReached = true := Nat.find_spec hexg
  have htd : ((trace s0 inputs (a + 14302 + b)).counter : ℚ) * dt > 13 := by
    rw [hcntd]
    have h1 : (14302 : ℚ) ≤ ((14302 + b : ℕ) : ℚ) := by exact_mod_cast Nat.le_add_right 14302 b
    rw [dt]
    linarith
  have h1d : (inputs (a + 14302 + b)).goalReached = true ∧
      ((trace s0 inputs (a + 14302 + b)).counter : ℚ) * dt
        > (trace s0 inputs (a + 14302 + b)).t4 := ⟨hgb, by rw [hT4d]; exact htd⟩
  have h2d : ¬(((trace s0 inputs (a + 14302 + b)).counter : ℚ) * dt
        > (trace s0 inputs (a + 14302 + b)).t3 ∧
      ((trace s0 inputs (a + 14302 + b)).counter : ℚ) * dt
        < (trace s0 inputs (a + 14302 + b)).t3 + total_time) := by
    rintro ⟨-, hlt⟩
    rw [hcntd, hT3d, total_time] at hlt
    have h1 : (14302 : ℚ) ≤ ((14302 + b : ℕ) : ℚ) := by exact_mod_cast Nat.le_add_right 14302 b
    rw [dt] at hlt
    linarith
  -- RETURN → WAIT
  have hEnd : (trace s0 inputs (a + 14302 + b + 1)).mode = Mode.wait ∧
      (trace s0 inputs (a + 14302 + b + 1)).ctrl = Ctrl.joint := by
    have hstep : trace s0 inputs (a + 14302 + b + 1) =
        step (trace s0 inputs (a + 14302 + b)) (inputs (a + 14302 + b)) := rfl
    rw [hstep, step_posori_to_wait _ _ hMd hCd h1d h2d]
    exact ⟨rfl, rfl⟩
  -- assemble the four segments
  refine ⟨a + 1, a + 12002, a + 14302, a + 14302 + b + 1,
    by omega, by omega, by omega, ?_, ?_, ?_, ?_, hEnd⟩
  · intro k hk
    rw [hA k (by omega)]
    exact ⟨hm, hc⟩
  · intro k hk1 hk2
    have he : k = a + 1 + (k - (a + 1)) := by omega
    rw [he, hBrun (k - (a + 1)) (by omega)]
    exact ⟨hm, rfl⟩
  · intro k hk1 hk2
    have he : k = a + 12002 + (k - (a + 12002)) := by omega
    rw [he, hCrun (k - (a + 12002)) (by omega)]
    exact ⟨hm, rfl⟩
  · intro k hk1 hk2
    have he : k = a + 14302 + (k - (a + 14302)) := by omega
    rw [he, hDrun (k - (a + 14302)) (by omega)]
    exact ⟨hm, rfl⟩


def c1InitialState : CState := { initState with mode := Mode.exec }

def c1Inputs : ℕ → TickInput := fun _ => ⟨"", 0, 0, 0, true, true, 0⟩

theorem c1_execute_cycle_phase_order_witness :
    c1InitialState.mode = Mode.exec ∧ c1InitialState.ctrl = Ctrl.joint ∧
    c1InitialState.t3 = 12 ∧ c1InitialState.t4 = 13 ∧
    (∀ n, ∃ m, n ≤ m ∧ (c1Inputs m).jointReached = true) ∧
    (∀ n, ∃ m, n ≤ m ∧ (c1Inputs m).goalReached = true) ∧
    (∃ n1 n2 n3 n4 : ℕ, n1 < n2 ∧ n2 < n3 ∧ n3 < n4 ∧
      (∀ k, k < n1 →
        (trace c1InitialState c1Inputs k).mode = Mode.exec ∧
        (trace c1InitialState c1Inputs k).ctrl = Ctrl.joint) ∧
      (∀ k, n1 ≤ k → k < n2 →
        (trace c1InitialState c1Inputs k).mode = Mode.exec ∧
        (trace c1InitialState c1Inputs k).ctrl = Ctrl.posori) ∧
      (∀ k, n2 ≤ k → k < n3 →
        (trace c1InitialState c1Inputs k).mode = Mode.exec ∧
        (trace c1InitialState c1Inputs k).ctrl = Ctrl.shot) ∧
      (∀ k, n3 ≤ k → k < n4 →
        (trace c1InitialState c1Inputs k).mode = Mode.exec ∧
        (trace c1InitialState c1Inputs k).ctrl = Ctrl.posori) ∧
      ((trace c1InitialState c1Inputs n4).mode = Mode.wait ∧
       (trace c1InitialState c1Inputs n4).ctrl = Ctrl.joint)) :=
  ⟨rfl, rfl, rfl, rfl, fun n => ⟨n, le_rfl, rfl⟩, fun n => ⟨n, le_rfl, rfl⟩,
   c1_execute_cycle_phase_order c1InitialState c1Inputs rfl rfl rfl rfl
     (fun n => ⟨n, le_rfl, rfl⟩) (fun n => ⟨n, le_rfl, rfl⟩)⟩
